import Mathlib

/-!
# Osmosis: concentrated-liquidity engine and pool messages

The first part (`ConcentratedLiquidity`) covers tick crossing, reward collection and
incentive accrual; the second part (`Gamm`) covers the message validation of
`x/gamm/types/msgs.go`.  All definitions come first, the theorems of both parts after.

## Concentrated-liquidity engine

`x/concentrated-liquidity/export_test.go` re-exports the keeper's unexported
functions (`crossTick`, `collectSpreadRewards`, `collectIncentives`,
`calcAccruedIncentivesForAccum`, ...) under capitalised names; the bodies of those
functions are not among the repository's source files.  The definitions below are
therefore modelled from the specification's description of each operation, and
every such definition says so in its doc comment.

Decimals are fixed-precision (18 fractional digits) and are held as an integer count
of `10^-18` units.  A growth value is a vector over the reward denominations; the
uptime tiers are a fixed finite family.
-/

namespace ConcentratedLiquidity

/-! ## Data model -/

/-- Fixed-precision decimal, as an integer number of `10^-18` units. -/
abbrev Dec := Int

/-- Number of `10^-18` units in one whole unit. -/
def precision : Int := 1000000000000000000

/-- Growth per unit of liquidity, one component per reward denomination. -/
abbrev GrowthVec (nDenoms : Nat) := Fin nDenoms → Dec

/-- Whole token amounts, one component per reward denomination. -/
abbrev Coins (nDenoms : Nat) := Fin nDenoms → Int

/-- Tagged errors of the engine. -/
inductive CLError where
  | tickNotFound
  | positionNotFound
  | notPositionOwner
  | accumEntryNotFound
  | negativeReward
  deriving DecidableEq, Repr

/-- Direction in which the price walks when it reaches a tick. -/
inductive SwapDirection where
  | priceUp
  | priceDown
  deriving DecidableEq, Repr

/-- The reverse direction. -/
def SwapDirection.opposite : SwapDirection → SwapDirection
  | .priceUp => .priceDown
  | .priceDown => .priceUp

/-- Modelled from the spec: the Tick of the data model (the fields of `model.TickInfo`
are not among the sources): net liquidity delta, gross liquidity, spread-reward
growth-outside, and incentive growth-outside per supported uptime tier. -/
structure TickInfo (nDenoms nTiers : Nat) where
  liquidityNet : Dec
  liquidityGross : Dec
  spreadRewardGrowthOutside : GrowthVec nDenoms
  uptimeGrowthOutside : Fin nTiers → GrowthVec nDenoms

/-- Modelled from the spec: an accumulator entry, holding the accumulation initial
value snapshot and the liquidity share at snapshot time. -/
structure AccumEntry (nDenoms : Nat) where
  initSnapshot : GrowthVec nDenoms
  liquidityShare : Dec

/-- Modelled from the spec: the Accumulator of the data model, a global growth value
plus a mapping from entry key (the position id) to its entry. -/
structure Accumulator (nDenoms : Nat) where
  value : GrowthVec nDenoms
  entries : Nat → Option (AccumEntry nDenoms)

/-- Modelled from the spec: the Position of the data model. -/
structure Position where
  owner : Nat
  poolId : Nat
  lowerTick : Int
  upperTick : Int
  liquidity : Dec
  joinTime : Int

/-- Modelled from the spec: the Pool of the data model. -/
structure Pool where
  sqrtPrice : Dec
  currentTick : Int
  liquidity : Dec
  tickSpacing : Nat
  spreadFactor : Dec

/-- Modelled from the spec: everything the keeper stores for one pool: the pool, its
tick store, its spread-reward accumulator, one incentive accumulator per uptime tier,
and its positions. -/
structure PoolState (nDenoms nTiers : Nat) where
  pool : Pool
  ticks : Int → Option (TickInfo nDenoms nTiers)
  spreadRewardAccum : Accumulator nDenoms
  uptimeAccums : Fin nTiers → Accumulator nDenoms
  positions : Nat → Option Position

/-! ## Tick store: crossing a tick -/

/-- Modelled from the spec: the flip `newOutside = globalGrowth - oldOutside` applied to
every growth-outside field of a tick, the global growth being the value of the pool's
spread-reward accumulator and of each uptime accumulator; the liquidity fields are kept. -/
def flipGrowthOutside {nDenoms nTiers : Nat} (s : PoolState nDenoms nTiers)
    (t : TickInfo nDenoms nTiers) : TickInfo nDenoms nTiers :=
  { t with
    spreadRewardGrowthOutside := s.spreadRewardAccum.value - t.spreadRewardGrowthOutside
    uptimeGrowthOutside := fun k => (s.uptimeAccums k).value - t.uptimeGrowthOutside k }

/-- Modelled from the spec: the tick's net liquidity delta with its sign adjusted for
the direction (net liquidity is the liquidity added when the price rises through the
tick from below). -/
def signedLiquidityNet {nDenoms nTiers : Nat} (direction : SwapDirection)
    (t : TickInfo nDenoms nTiers) : Dec :=
  match direction with
  | .priceUp => t.liquidityNet
  | .priceDown => -t.liquidityNet

/-- Modelled from the spec: `crossTick(pool, tickIndex, direction)` (the body of
`Keeper.crossTick` is not among the sources).  It flips every growth-outside field
of the tick via `newOutside = globalGrowth - oldOutside`, returns the tick's net
liquidity delta with its sign adjusted for the direction, and leaves the tick otherwise
unchanged.  A tick that is not in the store is a consistency error. -/
def crossTick {nDenoms nTiers : Nat} (s : PoolState nDenoms nTiers) (tickIndex : Int)
    (direction : SwapDirection) : Except CLError (Dec × PoolState nDenoms nTiers) :=
  match s.ticks tickIndex with
  | none => .error .tickNotFound
  | some t =>
    .ok (signedLiquidityNet direction t,
         { s with ticks := Function.update s.ticks tickIndex (some (flipGrowthOutside s t)) })

/-! ## Accumulator engine: collecting rewards -/

/-- Truncating fixed-precision product of two decimals. -/
def mulTruncate (a b : Dec) : Dec := (a * b).tdiv precision

/-- Truncation of a decimal to integer token units. -/
def truncateToUnits (a : Dec) : Int := a.tdiv precision

/-- The rule that derives a position's in-range share of global growth from the pool's
current tick, the position's lower and upper tick, the accumulator's global growth, and
the growth-outside stored at the lower and at the upper boundary tick.  The spec leaves
the formula for a price outside the range open ("a symmetric formula"), so the
collection operations take the rule as an argument. -/
abbrev InRangeRule (nDenoms : Nat) :=
  Int → Int → Int → GrowthVec nDenoms → GrowthVec nDenoms → GrowthVec nDenoms →
    GrowthVec nDenoms

/-- Modelled from the spec: settling one accumulator entry against the just-computed
growth value: subtract the stored initial snapshot, multiply by the position's
liquidity, truncate to integer token units, and re-snapshot the entry to the growth
value.  A negative delta in any denomination is a consistency error. -/
def claimRewards {nDenoms : Nat} (acc : Accumulator nDenoms) (entryKey : Nat)
    (liquidity : Dec) (growth : GrowthVec nDenoms) :
    Except CLError (Coins nDenoms × Accumulator nDenoms) :=
  match acc.entries entryKey with
  | none => .error .accumEntryNotFound
  | some e =>
    if ∀ i, 0 ≤ growth i - e.initSnapshot i then
      .ok (fun i => truncateToUnits (mulTruncate (growth i - e.initSnapshot i) liquidity),
           { acc with
             entries := Function.update acc.entries entryKey
               (some { e with initSnapshot := growth }) })
    else .error .negativeReward

/-- Modelled from the spec: `collectSpreadRewards` (the body of
`Keeper.collectSpreadRewards` is not among the sources): look the position up, check
its owner, read the growth-outside of both boundary ticks, derive the in-range growth of
the spread-reward accumulator, and settle the position's entry against it.  The coins
returned are what is paid out (the transfer itself belongs to the ledger). -/
def collectSpreadRewards {nDenoms nTiers : Nat} (rule : InRangeRule nDenoms)
    (s : PoolState nDenoms nTiers) (owner positionId : Nat) :
    Except CLError (Coins nDenoms × PoolState nDenoms nTiers) :=
  match s.positions positionId with
  | none => .error .positionNotFound
  | some p =>
    if p.owner ≠ owner then .error .notPositionOwner
    else
      match s.ticks p.lowerTick, s.ticks p.upperTick with
      | some lo, some hi =>
        match claimRewards s.spreadRewardAccum positionId p.liquidity
            (rule s.pool.currentTick p.lowerTick p.upperTick s.spreadRewardAccum.value
              lo.spreadRewardGrowthOutside hi.spreadRewardGrowthOutside) with
        | .error e => .error e
        | .ok (coins, acc) => .ok (coins, { s with spreadRewardAccum := acc })
      | _, _ => .error .tickNotFound

/-- The error of the first uptime tier whose settlement failed, if any. -/
def firstError {nTiers : Nat} {α : Type} (results : Fin nTiers → Except CLError α) :
    Option CLError :=
  (List.finRange nTiers).findSome? fun k =>
    match results k with
    | .error e => some e
    | .ok _ => none

/-- Coins of a settlement result (none on an error). -/
def claimedCoins {nDenoms : Nat} (r : Except CLError (Coins nDenoms × Accumulator nDenoms)) :
    Coins nDenoms :=
  match r with
  | .ok (coins, _) => coins
  | .error _ => 0

/-- Accumulator after a settlement (the accumulator as it was on an error). -/
def claimedAccum {nDenoms : Nat} (acc : Accumulator nDenoms)
    (r : Except CLError (Coins nDenoms × Accumulator nDenoms)) : Accumulator nDenoms :=
  match r with
  | .ok (_, acc1) => acc1
  | .error _ => acc

/-- Modelled from the spec: `collectIncentives` (the body of `Keeper.collectIncentives`
is not among the sources): the same settlement as for spread rewards, carried out on
the incentive accumulator of every uptime tier; the payout is the sum over the tiers,
and an error in any tier fails the whole collection. -/
def collectIncentives {nDenoms nTiers : Nat} (rule : InRangeRule nDenoms)
    (s : PoolState nDenoms nTiers) (owner positionId : Nat) :
    Except CLError (Coins nDenoms × PoolState nDenoms nTiers) :=
  match s.positions positionId with
  | none => .error .positionNotFound
  | some p =>
    if p.owner ≠ owner then .error .notPositionOwner
    else
      match s.ticks p.lowerTick, s.ticks p.upperTick with
      | some lo, some hi =>
        let results : Fin nTiers → Except CLError (Coins nDenoms × Accumulator nDenoms) :=
          fun k => claimRewards (s.uptimeAccums k) positionId p.liquidity
            (rule s.pool.currentTick p.lowerTick p.upperTick (s.uptimeAccums k).value
              (lo.uptimeGrowthOutside k) (hi.uptimeGrowthOutside k))
        match firstError results with
        | some e => .error e
        | none =>
          .ok (fun i => ∑ k, claimedCoins (results k) i,
               { s with uptimeAccums := fun k => claimedAccum (s.uptimeAccums k) (results k) })
      | _, _ => .error .tickNotFound

/-! ## Incentive accrual -/

/-- Truncating fixed-precision quotient of two decimals. -/
def quoTruncate (a b : Dec) : Dec := (a * precision).tdiv b

/-- Modelled from the spec: the Incentive Record of the data model (the fields of
`types.IncentiveRecord` are not among the sources): pool, uptime tier (as its minimum
uptime), reward denomination, remaining balance, emission rate per second, start and end
time. -/
structure IncentiveRecord (nDenoms : Nat) where
  poolId : Nat
  minUptime : Nat
  denom : Fin nDenoms
  remaining : Dec
  emissionRate : Dec
  startTime : Int
  endTime : Int
  deriving DecidableEq

/-- Modelled from the spec: a record takes part in the accrual of a tier when it is
active and its minimum uptime is at most the tier being updated.  The spec does not say
when a record is active, so that test is an argument. -/
def qualifiesFor {nDenoms : Nat} (isActive : IncentiveRecord nDenoms → Bool)
    (accumUptime : Nat) (r : IncentiveRecord nDenoms) : Bool :=
  isActive r && decide (r.minUptime ≤ accumUptime)

/-- Modelled from the spec: what a record accrues: emission rate times elapsed time,
capped at the record's remaining balance. -/
def accruedAmount {nDenoms : Nat} (timeElapsed : Dec) (r : IncentiveRecord nDenoms) : Dec :=
  min (mulTruncate r.emissionRate timeElapsed) r.remaining

/-- Modelled from the spec: the loop of `calcAccruedIncentivesForAccum` over the
records, carrying the growth accrued so far: a qualifying record adds its accrued amount
divided by the qualifying liquidity to the growth, in its own denomination, and has its
remaining balance decremented by the accrued amount. -/
def accrueRecords {nDenoms : Nat} (isActive : IncentiveRecord nDenoms → Bool)
    (accumUptime : Nat) (qualifyingLiquidity timeElapsed : Dec) :
    List (IncentiveRecord nDenoms) → GrowthVec nDenoms →
      GrowthVec nDenoms × List (IncentiveRecord nDenoms)
  | [], growth => (growth, [])
  | r :: rest, growth =>
    if qualifiesFor isActive accumUptime r then
      let accrued := accruedAmount timeElapsed r
      let done := accrueRecords isActive accumUptime qualifyingLiquidity timeElapsed rest
        (growth + Pi.single r.denom (quoTruncate accrued qualifyingLiquidity))
      (done.1, { r with remaining := r.remaining - accrued } :: done.2)
    else
      let done := accrueRecords isActive accumUptime qualifyingLiquidity timeElapsed rest growth
      (done.1, r :: done.2)

/-- Modelled from the spec: `calcAccruedIncentivesForAccum` (its body is not among
the sources).  For each active record whose minimum uptime is at most the tier, the
accrual is emission rate times elapsed time capped at the remaining balance; the record's
balance is decremented by it and the tier's growth increment gets the accrual divided by
the qualifying liquidity.  If no liquidity qualifies nothing is accrued and the records
are left as they are.  Products and quotients are the truncating fixed-precision ones. -/
def calcAccruedIncentivesForAccum {nDenoms : Nat} (isActive : IncentiveRecord nDenoms → Bool)
    (accumUptime : Nat) (qualifyingLiquidity timeElapsed : Dec)
    (poolIncentiveRecords : List (IncentiveRecord nDenoms)) :
    GrowthVec nDenoms × List (IncentiveRecord nDenoms) :=
  if qualifyingLiquidity = 0 then (0, poolIncentiveRecords)
  else accrueRecords isActive accumUptime qualifyingLiquidity timeElapsed poolIncentiveRecords 0

/-- How `calcAccruedIncentivesForAccum` relates a record to the record it returns in
its place: an active record whose minimum uptime is at most the tier has its remaining
balance decremented by exactly `min (rate * elapsed) remaining` and ends with a
non-negative balance; a record whose minimum uptime exceeds the tier, and likewise an
inactive one, is returned unchanged. -/
def AccruedFrom {nDenoms : Nat} (isActive : IncentiveRecord nDenoms → Bool)
    (accumUptime : Nat) (timeElapsed : Dec) (r r1 : IncentiveRecord nDenoms) : Prop :=
  (isActive r = true ∧ r.minUptime ≤ accumUptime →
    r1 = { r with remaining :=
            r.remaining - min (mulTruncate r.emissionRate timeElapsed) r.remaining } ∧
    0 ≤ r1.remaining) ∧
  (accumUptime < r.minUptime → r1 = r) ∧
  (isActive r = false → r1 = r)

/-- The growth increment the spec assigns to one record: the accrued amount divided by
the qualifying liquidity, in the record's denomination, for an active record whose
minimum uptime is at most the tier; nothing otherwise. -/
def growthShare {nDenoms : Nat} (isActive : IncentiveRecord nDenoms → Bool)
    (accumUptime : Nat) (qualifyingLiquidity timeElapsed : Dec)
    (r : IncentiveRecord nDenoms) : GrowthVec nDenoms :=
  if isActive r = true ∧ r.minUptime ≤ accumUptime then
    Pi.single r.denom
      (quoTruncate (min (mulTruncate r.emissionRate timeElapsed) r.remaining)
        qualifyingLiquidity)
  else 0

/-! ## Concrete states used to exercise the theorems -/

/-- The spec's formula for a price between the position's bounds, global growth less
the growth-outside of the lower and of the upper tick, used as the in-range rule of the
sample state (whose price lies between the bounds). -/
def sampleRule : InRangeRule 2 :=
  fun _ _ _ globalGrowth storedLower storedUpper => globalGrowth - storedLower - storedUpper

/-- The lower boundary tick of the sample position, at index -100. -/
def sampleLowerTick : TickInfo 2 2 :=
  { liquidityNet := 5 * precision, liquidityGross := 5 * precision,
    spreadRewardGrowthOutside := ![1 * precision, 0],
    uptimeGrowthOutside := ![![1 * precision, 1 * precision], ![0, 0]] }

/-- The upper boundary tick of the sample position, at index 100. -/
def sampleTick : TickInfo 2 2 :=
  { liquidityNet := -(5 * precision), liquidityGross := 5 * precision,
    spreadRewardGrowthOutside := ![3 * precision, 0],
    uptimeGrowthOutside := ![![1 * precision, 2 * precision], ![0, 5 * precision]] }

/-- The sample position: owner 7, range [-100, 100], liquidity 5. -/
def samplePosition : Position :=
  { owner := 7, poolId := 1, lowerTick := -100, upperTick := 100,
    liquidity := 5 * precision, joinTime := 0 }

/-- Accumulator entries holding one entry, under key 1. -/
def sampleEntries (snapshot : GrowthVec 2) : Nat → Option (AccumEntry 2) :=
  fun key => if key = 1 then some { initSnapshot := snapshot, liquidityShare := 5 * precision }
    else none

/-- A pool state at tick 0 with two reward denominations and two uptime tiers, whose
only position is `samplePosition` (id 1) between the initialised ticks -100 and 100. -/
def sampleState : PoolState 2 2 :=
  { pool := { sqrtPrice := precision, currentTick := 0, liquidity := 5 * precision,
              tickSpacing := 100, spreadFactor := 0 },
    ticks := fun i => if i = 100 then some sampleTick
      else if i = -100 then some sampleLowerTick else none,
    spreadRewardAccum :=
      { value := ![10 * precision, 4 * precision],
        entries := sampleEntries ![4 * precision, 4 * precision] },
    uptimeAccums :=
      ![{ value := ![6 * precision, 6 * precision],
          entries := sampleEntries ![3 * precision, 3 * precision] },
        { value := ![9 * precision, 5 * precision],
          entries := sampleEntries ![8 * precision, 0] }],
    positions := fun id => if id = 1 then some samplePosition else none }

/-- Three incentive records: one that is capped by its remaining balance, one that is
not, and one whose minimum uptime exceeds the tier used below. -/
def sampleRecords : List (IncentiveRecord 2) :=
  [ { poolId := 1, minUptime := 1, denom := 0, remaining := 30 * precision,
      emissionRate := 4 * precision, startTime := 0, endTime := 100 },
    { poolId := 1, minUptime := 60, denom := 1, remaining := 500 * precision,
      emissionRate := 2 * precision, startTime := 0, endTime := 100 },
    { poolId := 1, minUptime := 3600, denom := 0, remaining := 9 * precision,
      emissionRate := 1 * precision, startTime := 0, endTime := 100 } ]

/-- A record is taken as active once its start time lies before time 50. -/
def sampleActive (r : IncentiveRecord 2) : Bool := decide (r.startTime < 50)

end ConcentratedLiquidity

/-!
# Pool messages of `x/gamm/types/msgs.go`

Each message type has a `ValidateBasic` (returning an error or nil) and a `GetSigners`
(which panics when the sender does not decode).  The functions of the Cosmos SDK and of
the other files of the package that `msgs.go` calls (address decoding, coin and
denomination validity, route and pool-parameter validation) are arguments of the model,
gathered in `Collaborators`.  An `sdk.Int` is an integer, an `sdk.Dec` an integer number
of `10^-18` units (the nil `sdk.Int` / `sdk.Dec` of an unset field is outside the model);
`nil` of type `error` is `none`.
-/

namespace Gamm

/-- An `sdk.Int`. -/
abbrev SdkInt := Int

/-- An `sdk.Dec`, as an integer number of `10^-18` units. -/
abbrev SdkDec := Int

/-- `sdk.NewDec(n)`: the decimal with integer value `n`. -/
def NewDec (n : Int) : SdkDec := n * 1000000000000000000

/-- An `sdk.AccAddress`: a byte slice. -/
abbrev AccAddress := List Nat

/-- `AccAddress.Empty`. -/
def AccAddress.Empty (aa : AccAddress) : Bool := aa.isEmpty

/-- Error values.  The registered errors of the package and of `sdkerrors` that
`msgs.go` names are constants; `wrap` is `sdkerrors.Wrap` / `Wrapf` (the description text
is not kept), `new` is `errors.New`, and `foreign` stands for any other error value a
collaborator may return. -/
inductive Err where
  | ErrEmptyRecords
  | ErrTooLittleRecords
  | ErrTooManyRecords
  | ErrNotPositiveWeight
  | ErrNotPositiveCriteria
  | ErrNotPositiveRequireAmount
  | ErrInvalidAddress
  | ErrInvalidCoins
  | ErrLogic
  | wrap (cause : Err)
  | new (text : String)
  | foreign (code : Nat)
  deriving DecidableEq, Repr

/-- An `sdk.Coin`. -/
structure Coin where
  Denom : String
  Amount : SdkInt
  deriving DecidableEq, Repr

/-- `Coin.IsPositive`: the amount is strictly positive. -/
def Coin.IsPositive (coin : Coin) : Bool := decide (0 < coin.Amount)

/-- `Int.IsPositive` of `sdk.Int`. -/
def IsPositive (i : SdkInt) : Bool := decide (0 < i)

/-- `Dec.IsNegative`. -/
def IsNegative (d : SdkDec) : Bool := decide (d < 0)

/-- `Dec.GT`. -/
def GT (d d2 : SdkDec) : Bool := decide (d2 < d)

/-- A pool record: a weight and a token. -/
structure Record where
  Weight : SdkInt
  Token : Coin
  deriving DecidableEq, Repr

/-- Pool parameters.  `msgs.go` reads only `Lock`; the remaining fields are kept as an
uninterpreted payload for `PoolParams.Validate`. -/
structure PoolParams where
  Lock : Bool
  rest : List Int
  deriving DecidableEq, Repr

/-- A swap route step; `msgs.go` hands the routes to their own `Validate` unread. -/
structure Route where
  PoolId : Nat
  TokenDenom : String
  deriving DecidableEq, Repr

/-- The functions `msgs.go` calls that are defined elsewhere. -/
structure Collaborators where
  AccAddressFromBech32 : String → Except Err AccAddress
  ValidateDenom : String → Option Err
  CoinIsValid : Coin → Bool
  CoinsIsValid : List Coin → Bool
  SwapAmountInRoutesValidate : List Route → Option Err
  SwapAmountOutRoutesValidate : List Route → Option Err
  PoolParamsValidate : PoolParams → Option Err

/-! ## MsgCreatePool -/

/-- The message creating a pool. -/
structure MsgCreatePool where
  Sender : String
  Records : List Record
  PoolParams : PoolParams
  deriving DecidableEq, Repr

/-- The loop over the records in `MsgCreatePool.ValidateBasic`: the first record with a
non-positive weight, or with a token that is invalid or not positive, gives the error. -/
def validateRecords (c : Collaborators) : List Record → Option Err
  | [] => none
  | record :: rest =>
    if !IsPositive record.Weight then some (.wrap .ErrNotPositiveWeight)
    else if !c.CoinIsValid record.Token || !record.Token.IsPositive then
      some (.wrap .ErrInvalidCoins)
    else validateRecords c rest

/-- `MsgCreatePool.ValidateBasic`. -/
def MsgCreatePool.ValidateBasic (c : Collaborators) (msg : MsgCreatePool) : Option Err :=
  match c.AccAddressFromBech32 msg.Sender with
  | .error _ => some (.wrap .ErrInvalidAddress)
  | .ok _ =>
    if msg.Records.length = 0 then some .ErrEmptyRecords
    else if msg.Records.length = 1 then some .ErrTooLittleRecords
    else if msg.Records.length > 8 then some (.wrap .ErrTooManyRecords)
    else
      match validateRecords c msg.Records with
      | some err => some err
      | none =>
        if msg.PoolParams.Lock then some (.wrap .ErrLogic)
        else
          match c.PoolParamsValidate msg.PoolParams with
          | some err => some err
          | none => none

/-- The body shared by every `GetSigners` of `msgs.go`: decode the sender, panic on an
error (`.error`), else return the one-element list holding the address. -/
def signersOf (c : Collaborators) (sender : String) : Except Err (List AccAddress) :=
  match c.AccAddressFromBech32 sender with
  | .error err => .error err
  | .ok addr => .ok [addr]

/-- `MsgCreatePool.GetSigners`. -/
def MsgCreatePool.GetSigners (c : Collaborators) (msg : MsgCreatePool) :
    Except Err (List AccAddress) :=
  signersOf c msg.Sender

/-! ## MsgSwapExactAmountIn and MsgSwapExactAmountOut -/

/-- The message swapping an exact input amount. -/
structure MsgSwapExactAmountIn where
  Sender : String
  Routes : List Route
  TokenIn : Coin
  TokenOutMinAmount : SdkInt
  deriving DecidableEq, Repr

/-- `MsgSwapExactAmountIn.ValidateBasic`. -/
def MsgSwapExactAmountIn.ValidateBasic (c : Collaborators) (msg : MsgSwapExactAmountIn) :
    Option Err :=
  match c.AccAddressFromBech32 msg.Sender with
  | .error _ => some (.wrap .ErrInvalidAddress)
  | .ok _ =>
    match c.SwapAmountInRoutesValidate msg.Routes with
    | some err => some err
    | none =>
      if !c.CoinIsValid msg.TokenIn || !msg.TokenIn.IsPositive then
        some (.wrap .ErrInvalidCoins)
      else if !IsPositive msg.TokenOutMinAmount then some .ErrNotPositiveCriteria
      else none

/-- `MsgSwapExactAmountIn.GetSigners`. -/
def MsgSwapExactAmountIn.GetSigners (c : Collaborators) (msg : MsgSwapExactAmountIn) :
    Except Err (List AccAddress) :=
  signersOf c msg.Sender

/-- The message swapping for an exact output amount. -/
structure MsgSwapExactAmountOut where
  Sender : String
  Routes : List Route
  TokenInMaxAmount : SdkInt
  TokenOut : Coin
  deriving DecidableEq, Repr

/-- `MsgSwapExactAmountOut.ValidateBasic`. -/
def MsgSwapExactAmountOut.ValidateBasic (c : Collaborators) (msg : MsgSwapExactAmountOut) :
    Option Err :=
  match c.AccAddressFromBech32 msg.Sender with
  | .error _ => some (.wrap .ErrInvalidAddress)
  | .ok _ =>
    match c.SwapAmountOutRoutesValidate msg.Routes with
    | some err => some err
    | none =>
      if !c.CoinIsValid msg.TokenOut || !msg.TokenOut.IsPositive then
        some (.wrap .ErrInvalidCoins)
      else if !IsPositive msg.TokenInMaxAmount then some .ErrNotPositiveCriteria
      else none

/-- `MsgSwapExactAmountOut.GetSigners`. -/
def MsgSwapExactAmountOut.GetSigners (c : Collaborators) (msg : MsgSwapExactAmountOut) :
    Except Err (List AccAddress) :=
  signersOf c msg.Sender

/-! ## MsgJoinPool and MsgExitPool -/

/-- The message joining a pool. -/
structure MsgJoinPool where
  Sender : String
  ShareOutAmount : SdkInt
  TokenInMaxs : List Coin
  deriving DecidableEq, Repr

/-- `MsgJoinPool.ValidateBasic`. -/
def MsgJoinPool.ValidateBasic (c : Collaborators) (msg : MsgJoinPool) : Option Err :=
  match c.AccAddressFromBech32 msg.Sender with
  | .error _ => some (.wrap .ErrInvalidAddress)
  | .ok _ =>
    if !IsPositive msg.ShareOutAmount then some (.wrap .ErrNotPositiveRequireAmount)
    else if !c.CoinsIsValid msg.TokenInMaxs then some (.wrap .ErrInvalidCoins)
    else none

/-- `MsgJoinPool.GetSigners`. -/
def MsgJoinPool.GetSigners (c : Collaborators) (msg : MsgJoinPool) :
    Except Err (List AccAddress) :=
  signersOf c msg.Sender

/-- The message exiting a pool. -/
structure MsgExitPool where
  Sender : String
  ShareInAmount : SdkInt
  TokenOutMins : List Coin
  deriving DecidableEq, Repr

/-- `MsgExitPool.ValidateBasic`. -/
def MsgExitPool.ValidateBasic (c : Collaborators) (msg : MsgExitPool) : Option Err :=
  match c.AccAddressFromBech32 msg.Sender with
  | .error _ => some (.wrap .ErrInvalidAddress)
  | .ok _ =>
    if !IsPositive msg.ShareInAmount then some (.wrap .ErrNotPositiveRequireAmount)
    else if !c.CoinsIsValid msg.TokenOutMins then some (.wrap .ErrInvalidCoins)
    else none

/-- `MsgExitPool.GetSigners`. -/
def MsgExitPool.GetSigners (c : Collaborators) (msg : MsgExitPool) :
    Except Err (List AccAddress) :=
  signersOf c msg.Sender

/-! ## Single-asset joins and exits -/

/-- The message joining with an exact amount of one token. -/
structure MsgJoinSwapExternAmountIn where
  Sender : String
  TokenIn : Coin
  ShareOutMinAmount : SdkInt
  deriving DecidableEq, Repr

/-- `MsgJoinSwapExternAmountIn.ValidateBasic`. -/
def MsgJoinSwapExternAmountIn.ValidateBasic (c : Collaborators)
    (msg : MsgJoinSwapExternAmountIn) : Option Err :=
  match c.AccAddressFromBech32 msg.Sender with
  | .error _ => some (.wrap .ErrInvalidAddress)
  | .ok _ =>
    if !c.CoinIsValid msg.TokenIn || !msg.TokenIn.IsPositive then
      some (.wrap .ErrInvalidCoins)
    else if !IsPositive msg.ShareOutMinAmount then some (.wrap .ErrNotPositiveCriteria)
    else none

/-- `MsgJoinSwapExternAmountIn.GetSigners`. -/
def MsgJoinSwapExternAmountIn.GetSigners (c : Collaborators)
    (msg : MsgJoinSwapExternAmountIn) : Except Err (List AccAddress) :=
  signersOf c msg.Sender

/-- The message joining for an exact amount of shares, paid in one token. -/
structure MsgJoinSwapShareAmountOut where
  Sender : String
  TokenInDenom : String
  ShareOutAmount : SdkInt
  TokenInMaxAmount : SdkInt
  deriving DecidableEq, Repr

/-- `MsgJoinSwapShareAmountOut.ValidateBasic`. -/
def MsgJoinSwapShareAmountOut.ValidateBasic (c : Collaborators)
    (msg : MsgJoinSwapShareAmountOut) : Option Err :=
  match c.AccAddressFromBech32 msg.Sender with
  | .error _ => some (.wrap .ErrInvalidAddress)
  | .ok _ =>
    match c.ValidateDenom msg.TokenInDenom with
    | some err => some err
    | none =>
      if !IsPositive msg.ShareOutAmount then some (.wrap .ErrNotPositiveRequireAmount)
      else if !IsPositive msg.TokenInMaxAmount then some (.wrap .ErrNotPositiveCriteria)
      else none

/-- `MsgJoinSwapShareAmountOut.GetSigners`. -/
def MsgJoinSwapShareAmountOut.GetSigners (c : Collaborators)
    (msg : MsgJoinSwapShareAmountOut) : Except Err (List AccAddress) :=
  signersOf c msg.Sender

/-- The message exiting for an exact amount of one token. -/
structure MsgExitSwapExternAmountOut where
  Sender : String
  TokenOut : Coin
  ShareInMaxAmount : SdkInt
  deriving DecidableEq, Repr

/-- `MsgExitSwapExternAmountOut.ValidateBasic`. -/
def MsgExitSwapExternAmountOut.ValidateBasic (c : Collaborators)
    (msg : MsgExitSwapExternAmountOut) : Option Err :=
  match c.AccAddressFromBech32 msg.Sender with
  | .error _ => some (.wrap .ErrInvalidAddress)
  | .ok _ =>
    if !c.CoinIsValid msg.TokenOut || !msg.TokenOut.IsPositive then
      some (.wrap .ErrInvalidCoins)
    else if !IsPositive msg.ShareInMaxAmount then some (.wrap .ErrNotPositiveCriteria)
    else none

/-- `MsgExitSwapExternAmountOut.GetSigners`. -/
def MsgExitSwapExternAmountOut.GetSigners (c : Collaborators)
    (msg : MsgExitSwapExternAmountOut) : Except Err (List AccAddress) :=
  signersOf c msg.Sender

/-- The message exiting with an exact amount of shares, paid out in one token. -/
structure MsgExitSwapShareAmountIn where
  Sender : String
  TokenOutDenom : String
  ShareInAmount : SdkInt
  TokenOutMinAmount : SdkInt
  deriving DecidableEq, Repr

/-- `MsgExitSwapShareAmountIn.ValidateBasic`. -/
def MsgExitSwapShareAmountIn.ValidateBasic (c : Collaborators)
    (msg : MsgExitSwapShareAmountIn) : Option Err :=
  match c.AccAddressFromBech32 msg.Sender with
  | .error _ => some (.wrap .ErrInvalidAddress)
  | .ok _ =>
    match c.ValidateDenom msg.TokenOutDenom with
    | some err => some err
    | none =>
      if !IsPositive msg.ShareInAmount then some (.wrap .ErrNotPositiveRequireAmount)
      else if !IsPositive msg.TokenOutMinAmount then some (.wrap .ErrNotPositiveCriteria)
      else none

/-- `MsgExitSwapShareAmountIn.GetSigners`. -/
def MsgExitSwapShareAmountIn.GetSigners (c : Collaborators)
    (msg : MsgExitSwapShareAmountIn) : Except Err (List AccAddress) :=
  signersOf c msg.Sender

/-! ## MsgUpdateSwapFee -/

/-- The message updating a pool's swap fee. -/
structure MsgUpdateSwapFee where
  Sender : String
  NewSwapFee : SdkDec
  deriving DecidableEq, Repr

/-- `MsgUpdateSwapFee.ValidateBasic`. -/
def MsgUpdateSwapFee.ValidateBasic (c : Collaborators) (m : MsgUpdateSwapFee) : Option Err :=
  if IsNegative m.NewSwapFee then some (.new "swap fee could not be negative")
  else if GT m.NewSwapFee (NewDec 1) then some (.new "swap fee could not exceed 100%")
  else
    match c.AccAddressFromBech32 m.Sender with
    | .error err => some err
    | .ok sender =>
      if sender.Empty then some (.new "empty sender")
      else none

/-- `MsgUpdateSwapFee.GetSigners`. -/
def MsgUpdateSwapFee.GetSigners (c : Collaborators) (m : MsgUpdateSwapFee) :
    Except Err (List AccAddress) :=
  signersOf c m.Sender

/-! ## The ten message types as one `sdk.Msg` -/

/-- A message of `msgs.go`: each of the ten types is declared an `sdk.Msg`. -/
inductive Msg where
  | createPool (msg : MsgCreatePool)
  | swapExactAmountIn (msg : MsgSwapExactAmountIn)
  | swapExactAmountOut (msg : MsgSwapExactAmountOut)
  | joinPool (msg : MsgJoinPool)
  | exitPool (msg : MsgExitPool)
  | joinSwapExternAmountIn (msg : MsgJoinSwapExternAmountIn)
  | joinSwapShareAmountOut (msg : MsgJoinSwapShareAmountOut)
  | exitSwapExternAmountOut (msg : MsgExitSwapExternAmountOut)
  | exitSwapShareAmountIn (msg : MsgExitSwapShareAmountIn)
  | updateSwapFee (msg : MsgUpdateSwapFee)
  deriving DecidableEq, Repr

/-- The `Sender` field of a message. -/
def Msg.Sender : Msg → String
  | .createPool msg => msg.Sender
  | .swapExactAmountIn msg => msg.Sender
  | .swapExactAmountOut msg => msg.Sender
  | .joinPool msg => msg.Sender
  | .exitPool msg => msg.Sender
  | .joinSwapExternAmountIn msg => msg.Sender
  | .joinSwapShareAmountOut msg => msg.Sender
  | .exitSwapExternAmountOut msg => msg.Sender
  | .exitSwapShareAmountIn msg => msg.Sender
  | .updateSwapFee msg => msg.Sender

/-- `ValidateBasic` through the `sdk.Msg` interface. -/
def Msg.ValidateBasic (c : Collaborators) : Msg → Option Err
  | .createPool msg => msg.ValidateBasic c
  | .swapExactAmountIn msg => msg.ValidateBasic c
  | .swapExactAmountOut msg => msg.ValidateBasic c
  | .joinPool msg => msg.ValidateBasic c
  | .exitPool msg => msg.ValidateBasic c
  | .joinSwapExternAmountIn msg => msg.ValidateBasic c
  | .joinSwapShareAmountOut msg => msg.ValidateBasic c
  | .exitSwapExternAmountOut msg => msg.ValidateBasic c
  | .exitSwapShareAmountIn msg => msg.ValidateBasic c
  | .updateSwapFee msg => msg.ValidateBasic c

/-- `GetSigners` through the `sdk.Msg` interface; `.error` is a panic. -/
def Msg.GetSigners (c : Collaborators) : Msg → Except Err (List AccAddress)
  | .createPool msg => msg.GetSigners c
  | .swapExactAmountIn msg => msg.GetSigners c
  | .swapExactAmountOut msg => msg.GetSigners c
  | .joinPool msg => msg.GetSigners c
  | .exitPool msg => msg.GetSigners c
  | .joinSwapExternAmountIn msg => msg.GetSigners c
  | .joinSwapShareAmountOut msg => msg.GetSigners c
  | .exitSwapExternAmountOut msg => msg.GetSigners c
  | .exitSwapShareAmountIn msg => msg.GetSigners c
  | .updateSwapFee msg => msg.GetSigners c

/-! ## Stand-in collaborators used to exercise the theorems -/

/-- A stand-in for the address decoder: the empty string does not decode, any other
string decodes to the list of its character codes. -/
def sampleDecode (sender : String) : Except Err AccAddress :=
  if sender = "" then .error (.foreign 1) else .ok (sender.toList.map Char.toNat)

/-- Stand-in collaborators: a denomination is valid when non-empty, a coin when its
denomination is valid and its amount is not negative, routes when there is at least one,
pool parameters when their payload is empty. -/
def sampleCollaborators : Collaborators :=
  { AccAddressFromBech32 := sampleDecode,
    ValidateDenom := fun denom => if denom = "" then some (.foreign 2) else none,
    CoinIsValid := fun coin => decide (coin.Denom ≠ "") && decide (0 ≤ coin.Amount),
    CoinsIsValid := fun coins =>
      coins.all fun coin => decide (coin.Denom ≠ "") && decide (0 ≤ coin.Amount),
    SwapAmountInRoutesValidate := fun routes =>
      if routes.isEmpty then some (.foreign 3) else none,
    SwapAmountOutRoutesValidate := fun routes =>
      if routes.isEmpty then some (.foreign 3) else none,
    PoolParamsValidate := fun params =>
      if params.rest.isEmpty then none else some (.foreign 4) }

/-- A record with weight 1 and one unit of the given denomination. -/
def sampleRecord (denom : String) : Record :=
  { Weight := 1, Token := { Denom := denom, Amount := 1 } }

/-- A pool-creation message with the given records, unlocked. -/
def samplePool (records : List Record) : MsgCreatePool :=
  { Sender := "a", Records := records, PoolParams := { Lock := false, rest := [] } }

/-- An exact-in swap message from the given sender with the given minimum output. -/
def sampleSwapIn (sender : String) (tokenOutMinAmount : SdkInt) : MsgSwapExactAmountIn :=
  { Sender := sender, Routes := [{ PoolId := 1, TokenDenom := "uion" }],
    TokenIn := { Denom := "uosmo", Amount := 5 }, TokenOutMinAmount := tokenOutMinAmount }

/-- An exact-out swap message from the given sender with the given maximum input. -/
def sampleSwapOut (sender : String) (tokenInMaxAmount : SdkInt) : MsgSwapExactAmountOut :=
  { Sender := sender, Routes := [{ PoolId := 1, TokenDenom := "uosmo" }],
    TokenInMaxAmount := tokenInMaxAmount, TokenOut := { Denom := "uion", Amount := 5 } }

end Gamm

namespace ConcentratedLiquidity

/-! ## Theorems -/

/-- On an initialised tick `crossTick` succeeds, returning the signed net liquidity and
the state in which that tick alone has been replaced by its flipped version. -/
theorem crossTick_of_initialised {nDenoms nTiers : Nat} (s : PoolState nDenoms nTiers)
    (tickIndex : Int) (direction : SwapDirection) (t : TickInfo nDenoms nTiers)
    (hinit : s.ticks tickIndex = some t) :
    crossTick s tickIndex direction = .ok
      (signedLiquidityNet direction t,
       { s with ticks := Function.update s.ticks tickIndex (some (flipGrowthOutside s t)) }) := by
  simp only [crossTick, hinit]

/-- C1. Crossing an initialised tick and then immediately crossing it again in the
opposite direction succeeds both times; the first crossing sets every growth-outside
field to `globalGrowth - oldOutside`, and after the second crossing the spread-reward
growth-outside and the incentive growth-outside of every uptime tier have the values
they had before the first crossing. -/
theorem crossTick_twice_restores_growth_outside {nDenoms nTiers : Nat}
    (s : PoolState nDenoms nTiers) (tickIndex : Int) (direction : SwapDirection)
    (t : TickInfo nDenoms nTiers) (hinit : s.ticks tickIndex = some t) :
    ∃ d1 s1 t1 d2 s2 t2,
      crossTick s tickIndex direction = .ok (d1, s1) ∧
      s1.ticks tickIndex = some t1 ∧
      t1.spreadRewardGrowthOutside = s.spreadRewardAccum.value - t.spreadRewardGrowthOutside ∧
      (∀ k, t1.uptimeGrowthOutside k = (s.uptimeAccums k).value - t.uptimeGrowthOutside k) ∧
      crossTick s1 tickIndex direction.opposite = .ok (d2, s2) ∧
      s2.ticks tickIndex = some t2 ∧
      t2.spreadRewardGrowthOutside = t.spreadRewardGrowthOutside ∧
      (∀ k, t2.uptimeGrowthOutside k = t.uptimeGrowthOutside k) := by
  have h1 := crossTick_of_initialised s tickIndex direction t hinit
  have h2 := crossTick_of_initialised
    { s with ticks := Function.update s.ticks tickIndex (some (flipGrowthOutside s t)) }
    tickIndex direction.opposite (flipGrowthOutside s t) (Function.update_same _ _ _)
  refine ⟨_, _, _, _, _, _, h1, Function.update_same _ _ _, rfl, fun _ => rfl, h2,
    Function.update_same _ _ _, ?_, ?_⟩
  · simp [flipGrowthOutside]
  · intro k
    simp [flipGrowthOutside]

/-- A successful settlement keeps the accumulator's global growth, and settling the
same entry again against the same growth value pays zero and changes nothing. -/
theorem claimRewards_again {nDenoms : Nat} (acc acc1 : Accumulator nDenoms) (entryKey : Nat)
    (liquidity : Dec) (growth : GrowthVec nDenoms) (coins : Coins nDenoms)
    (h : claimRewards acc entryKey liquidity growth = .ok (coins, acc1)) :
    acc1.value = acc.value ∧ claimRewards acc1 entryKey liquidity growth = .ok (0, acc1) := by
  unfold claimRewards at h
  cases he : acc.entries entryKey with
  | none => simp [he] at h
  | some e =>
    simp only [he] at h
    split at h
    · simp only [Except.ok.injEq, Prod.mk.injEq] at h
      obtain ⟨-, rfl⟩ := h
      refine ⟨rfl, ?_⟩
      simp only [claimRewards, Function.update_same, sub_self, le_refl, implies_true,
        if_true, Function.update_idem]
      congr 2
      funext i
      simp [mulTruncate, truncateToUnits]
    · simp at h

/-- No tier failed exactly when every tier's settlement is a success. -/
theorem firstError_eq_none_iff {nTiers : Nat} {α : Type}
    (results : Fin nTiers → Except CLError α) :
    firstError results = none ↔ ∀ k, ∃ r, results k = .ok r := by
  unfold firstError
  rw [List.findSome?_eq_none_iff]
  constructor
  · intro h k
    have hk := h k (List.mem_finRange k)
    cases hr : results k with
    | error e => simp [hr] at hk
    | ok r => exact ⟨r, rfl⟩
  · intro h k _
    obtain ⟨r, hr⟩ := h k
    simp [hr]

/-- C2. Collecting a position's spread rewards, or its incentives, twice in succession
with nothing in between: whenever the first collection succeeds, the second one succeeds
too, pays zero in every denomination, and leaves the state as the first collection left
it (the entry was re-snapshotted to the growth value just paid against). -/
theorem collect_twice_second_pays_zero {nDenoms nTiers : Nat} (rule : InRangeRule nDenoms)
    (s : PoolState nDenoms nTiers) (owner positionId : Nat) :
    (∀ paid s1, collectSpreadRewards rule s owner positionId = .ok (paid, s1) →
      collectSpreadRewards rule s1 owner positionId = .ok (0, s1)) ∧
    (∀ paid s1, collectIncentives rule s owner positionId = .ok (paid, s1) →
      collectIncentives rule s1 owner positionId = .ok (0, s1)) := by
  constructor
  · intro paid s1 h
    unfold collectSpreadRewards at h
    cases hp : s.positions positionId with
    | none => simp [hp] at h
    | some p =>
      simp only [hp] at h
      split at h
      · simp at h
      · rename_i hown
        cases hlo : s.ticks p.lowerTick with
        | none => simp [hlo] at h
        | some lo =>
          cases hhi : s.ticks p.upperTick with
          | none => simp [hlo, hhi] at h
          | some hi =>
            simp only [hlo, hhi] at h
            split at h
            · simp at h
            · rename_i coins acc hclaim
              simp only [Except.ok.injEq, Prod.mk.injEq] at h
              obtain ⟨-, rfl⟩ := h
              obtain ⟨hval, hagain⟩ := claimRewards_again _ _ _ _ _ _ hclaim
              simp only [collectSpreadRewards, hp, hown, if_false, hlo, hhi, hval, hagain]
  · intro paid s1 h
    unfold collectIncentives at h
    cases hp : s.positions positionId with
    | none => simp [hp] at h
    | some p =>
      simp only [hp] at h
      split at h
      · simp at h
      · rename_i hown
        cases hlo : s.ticks p.lowerTick with
        | none => simp [hlo] at h
        | some lo =>
          cases hhi : s.ticks p.upperTick with
          | none => simp [hlo, hhi] at h
          | some hi =>
            simp only [hlo, hhi] at h
            split at h
            · simp at h
            · rename_i hnone
              simp only [Except.ok.injEq, Prod.mk.injEq] at h
              obtain ⟨-, rfl⟩ := h
              rw [firstError_eq_none_iff] at hnone
              have hk : ∀ k, (claimedAccum (s.uptimeAccums k)
                    (claimRewards (s.uptimeAccums k) positionId p.liquidity
                      (rule s.pool.currentTick p.lowerTick p.upperTick (s.uptimeAccums k).value
                        (lo.uptimeGrowthOutside k) (hi.uptimeGrowthOutside k)))).value
                      = (s.uptimeAccums k).value ∧
                  claimRewards (claimedAccum (s.uptimeAccums k)
                    (claimRewards (s.uptimeAccums k) positionId p.liquidity
                      (rule s.pool.currentTick p.lowerTick p.upperTick (s.uptimeAccums k).value
                        (lo.uptimeGrowthOutside k) (hi.uptimeGrowthOutside k))))
                    positionId p.liquidity
                    (rule s.pool.currentTick p.lowerTick p.upperTick (s.uptimeAccums k).value
                        (lo.uptimeGrowthOutside k) (hi.uptimeGrowthOutside k))
                  = .ok (0, claimedAccum (s.uptimeAccums k)
                    (claimRewards (s.uptimeAccums k) positionId p.liquidity
                      (rule s.pool.currentTick p.lowerTick p.upperTick (s.uptimeAccums k).value
                        (lo.uptimeGrowthOutside k) (hi.uptimeGrowthOutside k)))) := by
                intro k
                obtain ⟨⟨c, a⟩, hr⟩ := hnone k
                rw [hr]
                exact claimRewards_again _ _ _ _ _ _ hr
              have hnone2 : firstError (fun k =>
                  claimRewards (claimedAccum (s.uptimeAccums k)
                    (claimRewards (s.uptimeAccums k) positionId p.liquidity
                      (rule s.pool.currentTick p.lowerTick p.upperTick (s.uptimeAccums k).value
                        (lo.uptimeGrowthOutside k) (hi.uptimeGrowthOutside k))))
                    positionId p.liquidity
                    (rule s.pool.currentTick p.lowerTick p.upperTick (s.uptimeAccums k).value
                        (lo.uptimeGrowthOutside k) (hi.uptimeGrowthOutside k))) = none := by
                rw [firstError_eq_none_iff]
                intro k
                exact ⟨_, (hk k).2⟩
              simp only [collectIncentives, hp, hown, if_false, hlo, hhi]
              simp only [fun k => (hk k).1, hnone2]
              congr 2
              · funext i
                have hz : ∀ k, claimedCoins (claimRewards (claimedAccum (s.uptimeAccums k)
                    (claimRewards (s.uptimeAccums k) positionId p.liquidity
                      (rule s.pool.currentTick p.lowerTick p.upperTick (s.uptimeAccums k).value
                        (lo.uptimeGrowthOutside k) (hi.uptimeGrowthOutside k))))
                    positionId p.liquidity
                    (rule s.pool.currentTick p.lowerTick p.upperTick (s.uptimeAccums k).value
                        (lo.uptimeGrowthOutside k) (hi.uptimeGrowthOutside k))) i = 0 := by
                  intro k
                  rw [(hk k).2]
                  rfl
                simp only [hz, Finset.sum_const_zero, Pi.zero_apply]
              · congr 1
                funext k
                show claimedAccum _ (claimRewards _ _ _ _) = _
                rw [(hk k).2]
                rfl

/-- The qualification test, spelled out. -/
theorem qualifiesFor_iff {nDenoms : Nat} (isActive : IncentiveRecord nDenoms → Bool)
    (accumUptime : Nat) (r : IncentiveRecord nDenoms) :
    qualifiesFor isActive accumUptime r = true ↔
      isActive r = true ∧ r.minUptime ≤ accumUptime := by
  simp [qualifiesFor]

/-- The loop returns one record for each record given, related to it by `AccruedFrom`,
and adds to the growth carried in the sum of the records' growth shares. -/
theorem accrueRecords_spec {nDenoms : Nat} (isActive : IncentiveRecord nDenoms → Bool)
    (accumUptime : Nat) (qualifyingLiquidity timeElapsed : Dec)
    (records : List (IncentiveRecord nDenoms)) (growth : GrowthVec nDenoms) :
    (accrueRecords isActive accumUptime qualifyingLiquidity timeElapsed records growth).1
        = growth + (records.map
            (growthShare isActive accumUptime qualifyingLiquidity timeElapsed)).sum ∧
    List.Forall₂ (AccruedFrom isActive accumUptime timeElapsed) records
      (accrueRecords isActive accumUptime qualifyingLiquidity timeElapsed records growth).2 := by
  induction records generalizing growth with
  | nil => simp [accrueRecords]
  | cons r rest ih =>
    cases hq : qualifiesFor isActive accumUptime r with
    | true =>
      have hq1 := (qualifiesFor_iff isActive accumUptime r).mp hq
      obtain ⟨ih1, ih2⟩ := ih
        (growth + Pi.single r.denom
          (quoTruncate (accruedAmount timeElapsed r) qualifyingLiquidity))
      refine ⟨?_, ?_⟩
      · have hshare : growthShare isActive accumUptime qualifyingLiquidity timeElapsed r
            = Pi.single r.denom
                (quoTruncate (accruedAmount timeElapsed r) qualifyingLiquidity) := by
          simp [growthShare, hq1, accruedAmount]
        simp only [accrueRecords, hq, if_true, ih1, List.map_cons, List.sum_cons, hshare]
        rw [add_assoc]
      · simp only [accrueRecords, hq, if_true]
        refine List.Forall₂.cons ⟨fun _ => ⟨rfl, ?_⟩, fun h => ?_, fun h => ?_⟩ ih2
        · show 0 ≤ r.remaining - accruedAmount timeElapsed r
          exact sub_nonneg.mpr (min_le_right _ _)
        · exact absurd hq1.2 (not_le.mpr h)
        · rw [hq1.1] at h
          cases h
    | false =>
      have hq1 : ¬(isActive r = true ∧ r.minUptime ≤ accumUptime) := by
        rw [← qualifiesFor_iff, hq]
        simp
      obtain ⟨ih1, ih2⟩ := ih growth
      refine ⟨?_, ?_⟩
      · simp [accrueRecords, hq, ih1, growthShare, hq1]
      · simp only [accrueRecords, hq]
        exact List.Forall₂.cons ⟨fun h => absurd h hq1, fun _ => rfl, fun _ => rfl⟩ ih2

/-- C9. With positive qualifying liquidity, `calcAccruedIncentivesForAccum` returns one
record per record given, in order: each active record whose minimum uptime is at most the
tier has its remaining balance decremented by exactly
`min (emission rate * elapsed time) remaining` and ends non-negative, every other record
is returned unchanged; and the growth increment returned is the sum, over the qualifying
records, of the accrued amount divided by the qualifying liquidity. -/
theorem calcAccruedIncentivesForAccum_spec {nDenoms : Nat}
    (isActive : IncentiveRecord nDenoms → Bool) (accumUptime : Nat)
    (qualifyingLiquidity timeElapsed : Dec) (records : List (IncentiveRecord nDenoms))
    (hliq : 0 < qualifyingLiquidity) :
    List.Forall₂ (AccruedFrom isActive accumUptime timeElapsed) records
      (calcAccruedIncentivesForAccum isActive accumUptime qualifyingLiquidity timeElapsed
        records).2 ∧
    (calcAccruedIncentivesForAccum isActive accumUptime qualifyingLiquidity timeElapsed
        records).1
      = (records.map (growthShare isActive accumUptime qualifyingLiquidity timeElapsed)).sum := by
  have hne : qualifyingLiquidity ≠ 0 := ne_of_gt hliq
  obtain ⟨h1, h2⟩ := accrueRecords_spec isActive accumUptime qualifyingLiquidity timeElapsed
    records 0
  simp only [calcAccruedIncentivesForAccum, hne, if_false]
  exact ⟨h2, by rw [h1, zero_add]⟩

/-- C1 at the sample state: tick 100 is initialised, and crossing it upwards and then
downwards restores its growth-outside fields. -/
theorem crossTick_twice_restores_growth_outside_witness :
    sampleState.ticks 100 = some sampleTick ∧
    ∃ d1 s1 t1 d2 s2 t2,
      crossTick sampleState 100 .priceUp = .ok (d1, s1) ∧
      s1.ticks 100 = some t1 ∧
      t1.spreadRewardGrowthOutside
        = sampleState.spreadRewardAccum.value - sampleTick.spreadRewardGrowthOutside ∧
      (∀ k, t1.uptimeGrowthOutside k
        = (sampleState.uptimeAccums k).value - sampleTick.uptimeGrowthOutside k) ∧
      crossTick s1 100 SwapDirection.priceUp.opposite = .ok (d2, s2) ∧
      s2.ticks 100 = some t2 ∧
      t2.spreadRewardGrowthOutside = sampleTick.spreadRewardGrowthOutside ∧
      (∀ k, t2.uptimeGrowthOutside k = sampleTick.uptimeGrowthOutside k) :=
  ⟨rfl, crossTick_twice_restores_growth_outside sampleState 100 .priceUp sampleTick rfl⟩

/-- C2 at the sample state: the first collection of spread rewards pays 10 of the first
denomination and the first collection of incentives pays 5 + 5 of it; the second
collection of either pays zero. -/
theorem collect_twice_second_pays_zero_witness :
    (∃ paid s1, collectSpreadRewards sampleRule sampleState 7 1 = .ok (paid, s1) ∧
      paid 0 = 10 ∧ paid 1 = 0 ∧
      collectSpreadRewards sampleRule s1 7 1 = .ok (0, s1)) ∧
    (∃ paid s1, collectIncentives sampleRule sampleState 7 1 = .ok (paid, s1) ∧
      paid 0 = 10 ∧ paid 1 = 0 ∧
      collectIncentives sampleRule s1 7 1 = .ok (0, s1)) :=
  ⟨⟨_, _, rfl, by decide, by decide,
      (collect_twice_second_pays_zero sampleRule sampleState 7 1).1 _ _ rfl⟩,
   ⟨_, _, rfl, by decide, by decide,
      (collect_twice_second_pays_zero sampleRule sampleState 7 1).2 _ _ rfl⟩⟩

/-- C9 at the sample records, for the 60-second tier, qualifying liquidity 10 and 10
seconds elapsed: the first record is capped at its balance of 30 and ends at zero, the
second accrues 20 of its 500, the third (minimum uptime above the tier) is untouched, and
the growth increment is 3 and 2 per unit of liquidity. -/
theorem calcAccruedIncentivesForAccum_spec_witness :
    (0 : Dec) < 10 * precision ∧
    (List.Forall₂ (AccruedFrom sampleActive 60 (10 * precision)) sampleRecords
      (calcAccruedIncentivesForAccum sampleActive 60 (10 * precision) (10 * precision)
        sampleRecords).2 ∧
     (calcAccruedIncentivesForAccum sampleActive 60 (10 * precision) (10 * precision)
        sampleRecords).1
      = (sampleRecords.map
          (growthShare sampleActive 60 (10 * precision) (10 * precision))).sum) ∧
    (calcAccruedIncentivesForAccum sampleActive 60 (10 * precision) (10 * precision)
        sampleRecords).2.map (fun r => r.remaining)
      = [0, 480 * precision, 9 * precision] ∧
    (calcAccruedIncentivesForAccum sampleActive 60 (10 * precision) (10 * precision)
        sampleRecords).1 0 = 3 * precision ∧
    (calcAccruedIncentivesForAccum sampleActive 60 (10 * precision) (10 * precision)
        sampleRecords).1 1 = 2 * precision :=
  ⟨by decide,
   calcAccruedIncentivesForAccum_spec sampleActive 60 (10 * precision) (10 * precision)
     sampleRecords (by decide),
   by decide, by decide, by decide⟩

end ConcentratedLiquidity

namespace Gamm

/-- C11. `MsgUpdateSwapFee.ValidateBasic` returns an error for every negative fee and
for every fee above 1, whatever the sender; it returns nil for every fee in `[0, 1]`
whose sender decodes to a non-empty address; in particular the fees 0 and 1 are both
accepted for such a sender. -/
theorem MsgUpdateSwapFee_ValidateBasic_fee_bounds (c : Collaborators) (m : MsgUpdateSwapFee) :
    (m.NewSwapFee < 0 →
      m.ValidateBasic c = some (.new "swap fee could not be negative")) ∧
    (NewDec 1 < m.NewSwapFee →
      m.ValidateBasic c = some (.new "swap fee could not exceed 100%")) ∧
    (∀ addr, 0 ≤ m.NewSwapFee → m.NewSwapFee ≤ NewDec 1 →
      c.AccAddressFromBech32 m.Sender = .ok addr → addr ≠ [] →
      m.ValidateBasic c = none) ∧
    (∀ addr, c.AccAddressFromBech32 m.Sender = .ok addr → addr ≠ [] →
      MsgUpdateSwapFee.ValidateBasic c { m with NewSwapFee := 0 } = none ∧
      MsgUpdateSwapFee.ValidateBasic c { m with NewSwapFee := NewDec 1 } = none) := by
  have hgen : ∀ (fee : SdkDec) (addr : AccAddress), 0 ≤ fee → fee ≤ NewDec 1 →
      c.AccAddressFromBech32 m.Sender = .ok addr → addr ≠ [] →
      MsgUpdateSwapFee.ValidateBasic c { m with NewSwapFee := fee } = none := by
    intro fee addr h0 h1 hdec hne
    have hneg : ¬ fee < 0 := not_lt.mpr h0
    have hgt : ¬ NewDec 1 < fee := not_lt.mpr h1
    have hemp : addr.isEmpty = false := by
      cases addr with
      | nil => exact absurd rfl hne
      | cons _ _ => rfl
    simp [MsgUpdateSwapFee.ValidateBasic, IsNegative, GT, hneg, hgt, hdec, AccAddress.Empty,
      hemp]
  refine ⟨?_, ?_, ?_, ?_⟩
  · intro h
    simp [MsgUpdateSwapFee.ValidateBasic, IsNegative, h]
  · intro h
    have hone : (0 : Int) < NewDec 1 := by decide
    have hpos : ¬ m.NewSwapFee < 0 := not_lt.mpr (le_of_lt (lt_trans hone h))
    simp [MsgUpdateSwapFee.ValidateBasic, IsNegative, GT, h, hpos]
  · intro addr h0 h1 hdec hne
    exact hgen m.NewSwapFee addr h0 h1 hdec hne
  · intro addr hdec hne
    exact ⟨hgen 0 addr (le_refl 0) (by decide) hdec hne,
      hgen (NewDec 1) addr (by decide) (le_refl _) hdec hne⟩

/-- The record loop finds no fault exactly when every record has a strictly positive
weight and a token that is valid and strictly positive. -/
theorem validateRecords_eq_none_iff (c : Collaborators) (records : List Record) :
    validateRecords c records = none ↔
      ∀ record ∈ records,
        0 < record.Weight ∧ c.CoinIsValid record.Token = true ∧ 0 < record.Token.Amount := by
  induction records with
  | nil => simp [validateRecords]
  | cons record rest ih =>
    simp only [validateRecords, List.mem_cons, forall_eq_or_imp, ← ih]
    by_cases hw : 0 < record.Weight
    · by_cases hv : c.CoinIsValid record.Token = true
      · by_cases hp : 0 < record.Token.Amount
        · simp [IsPositive, Coin.IsPositive, hw, hv, hp]
        · simp [IsPositive, Coin.IsPositive, hw, hv, hp]
      · simp [IsPositive, Coin.IsPositive, hw, hv]
    · simp [IsPositive, hw]

/-- The only errors the record loop returns are the wrapped `ErrNotPositiveWeight` and
the wrapped `ErrInvalidCoins`. -/
theorem validateRecords_error (c : Collaborators) (records : List Record) (err : Err)
    (h : validateRecords c records = some err) :
    err = .wrap .ErrNotPositiveWeight ∨ err = .wrap .ErrInvalidCoins := by
  induction records with
  | nil => simp [validateRecords] at h
  | cons record rest ih =>
    simp only [validateRecords] at h
    split at h
    · left
      exact (Option.some.inj h).symm
    · split at h
      · right
        exact (Option.some.inj h).symm
      · exact ih h

/-- C14. `MsgCreatePool.ValidateBasic` returns nil if and only if the sender decodes,
there are between 2 and 8 records, every record has a strictly positive weight and a
token that is valid and strictly positive, `PoolParams.Lock` is false, and
`PoolParams.Validate` returns nil. -/
theorem MsgCreatePool_ValidateBasic_nil_iff (c : Collaborators) (msg : MsgCreatePool) :
    msg.ValidateBasic c = none ↔
      (∃ addr, c.AccAddressFromBech32 msg.Sender = .ok addr) ∧
      2 ≤ msg.Records.length ∧ msg.Records.length ≤ 8 ∧
      (∀ record ∈ msg.Records,
        0 < record.Weight ∧ c.CoinIsValid record.Token = true ∧ 0 < record.Token.Amount) ∧
      msg.PoolParams.Lock = false ∧
      c.PoolParamsValidate msg.PoolParams = none := by
  rw [← validateRecords_eq_none_iff]
  unfold MsgCreatePool.ValidateBasic
  cases hdec : c.AccAddressFromBech32 msg.Sender with
  | error e => simp
  | ok addr =>
    by_cases h0 : msg.Records.length = 0
    · simp [h0]
    · by_cases h1 : msg.Records.length = 1
      · simp [h1]
      · by_cases h8 : msg.Records.length > 8
        · simp only [h0, h1, h8, if_true, if_false]
          simp
          omega
        · have hlo : 2 ≤ msg.Records.length := by omega
          have hhi : msg.Records.length ≤ 8 := by omega
          simp only [h0, h1, h8, if_false]
          cases hrec : validateRecords c msg.Records with
          | some e => simp
          | none =>
            cases hlock : msg.PoolParams.Lock with
            | true => simp
            | false =>
              cases hpp : c.PoolParamsValidate msg.PoolParams with
              | some e => simp [hlo, hhi]
              | none => simp [hlo, hhi]

/-- C15. For a pool-creation message whose sender decodes, the record count alone
decides the error: no record gives `ErrEmptyRecords`, exactly one gives
`ErrTooLittleRecords`, more than 8 gives `ErrTooManyRecords` wrapped, whatever the
records hold and whatever the lock flag and the pool parameters are; with 2 to 8 records
none of these three errors is returned, `PoolParams.Validate` being a collaborator that
does not itself return one of them. -/
theorem MsgCreatePool_ValidateBasic_record_count (c : Collaborators) (msg : MsgCreatePool)
    (addr : AccAddress) (hdec : c.AccAddressFromBech32 msg.Sender = .ok addr) :
    (msg.Records.length = 0 → msg.ValidateBasic c = some .ErrEmptyRecords) ∧
    (msg.Records.length = 1 → msg.ValidateBasic c = some .ErrTooLittleRecords) ∧
    (8 < msg.Records.length → msg.ValidateBasic c = some (.wrap .ErrTooManyRecords)) ∧
    (2 ≤ msg.Records.length → msg.Records.length ≤ 8 →
      (∀ err, c.PoolParamsValidate msg.PoolParams = some err →
        err ≠ .ErrEmptyRecords ∧ err ≠ .ErrTooLittleRecords ∧
        err ≠ .wrap .ErrTooManyRecords) →
      msg.ValidateBasic c ≠ some .ErrEmptyRecords ∧
      msg.ValidateBasic c ≠ some .ErrTooLittleRecords ∧
      msg.ValidateBasic c ≠ some (.wrap .ErrTooManyRecords)) := by
  refine ⟨?_, ?_, ?_, ?_⟩
  · intro h
    simp [MsgCreatePool.ValidateBasic, hdec, h]
  · intro h
    simp [MsgCreatePool.ValidateBasic, hdec, h]
  · intro h
    have h0 : msg.Records.length ≠ 0 := by omega
    have h1 : msg.Records.length ≠ 1 := by omega
    simp [MsgCreatePool.ValidateBasic, hdec, h0, h1, h]
  · intro hlo hhi hpp
    have h0 : msg.Records.length ≠ 0 := by omega
    have h1 : msg.Records.length ≠ 1 := by omega
    have h8 : ¬ msg.Records.length > 8 := by omega
    have hval : msg.ValidateBasic c =
        match validateRecords c msg.Records with
        | some err => some err
        | none =>
          if msg.PoolParams.Lock then some (.wrap .ErrLogic)
          else
            match c.PoolParamsValidate msg.PoolParams with
            | some err => some err
            | none => none := by
      simp only [MsgCreatePool.ValidateBasic, hdec, h0, h1, h8, if_false]
    rw [hval]
    cases hrec : validateRecords c msg.Records with
    | some e =>
      rcases validateRecords_error c msg.Records e hrec with rfl | rfl <;> simp
    | none =>
      cases hlock : msg.PoolParams.Lock with
      | true => simp
      | false =>
        cases hv : c.PoolParamsValidate msg.PoolParams with
        | none => simp
        | some e =>
          obtain ⟨ha, hb, hc⟩ := hpp e hv
          simp [ha, hb, hc]

/-- C12. `MsgSwapExactAmountIn.ValidateBasic` returns nil if and only if the sender
decodes, the routes validate, `TokenIn` is valid with a strictly positive amount and
`TokenOutMinAmount` is strictly positive; `MsgSwapExactAmountOut.ValidateBasic` returns
nil if and only if the sender decodes, the routes validate, `TokenOut` is valid with a
strictly positive amount and `TokenInMaxAmount` is strictly positive; and for a message
that passes the checks before it, a zero or negative limit yields
`ErrNotPositiveCriteria`. -/
theorem swap_ValidateBasic_nil_iff (c : Collaborators) (msgIn : MsgSwapExactAmountIn)
    (msgOut : MsgSwapExactAmountOut) :
    (msgIn.ValidateBasic c = none ↔
      (∃ addr, c.AccAddressFromBech32 msgIn.Sender = .ok addr) ∧
      c.SwapAmountInRoutesValidate msgIn.Routes = none ∧
      c.CoinIsValid msgIn.TokenIn = true ∧ 0 < msgIn.TokenIn.Amount ∧
      0 < msgIn.TokenOutMinAmount) ∧
    (msgOut.ValidateBasic c = none ↔
      (∃ addr, c.AccAddressFromBech32 msgOut.Sender = .ok addr) ∧
      c.SwapAmountOutRoutesValidate msgOut.Routes = none ∧
      c.CoinIsValid msgOut.TokenOut = true ∧ 0 < msgOut.TokenOut.Amount ∧
      0 < msgOut.TokenInMaxAmount) ∧
    ((∃ addr, c.AccAddressFromBech32 msgIn.Sender = .ok addr) →
      c.SwapAmountInRoutesValidate msgIn.Routes = none →
      c.CoinIsValid msgIn.TokenIn = true → 0 < msgIn.TokenIn.Amount →
      msgIn.TokenOutMinAmount ≤ 0 →
      msgIn.ValidateBasic c = some .ErrNotPositiveCriteria) ∧
    ((∃ addr, c.AccAddressFromBech32 msgOut.Sender = .ok addr) →
      c.SwapAmountOutRoutesValidate msgOut.Routes = none →
      c.CoinIsValid msgOut.TokenOut = true → 0 < msgOut.TokenOut.Amount →
      msgOut.TokenInMaxAmount ≤ 0 →
      msgOut.ValidateBasic c = some .ErrNotPositiveCriteria) := by
  refine ⟨?_, ?_, ?_, ?_⟩
  · unfold MsgSwapExactAmountIn.ValidateBasic
    cases hdec : c.AccAddressFromBech32 msgIn.Sender with
    | error e => simp
    | ok addr =>
      cases hr : c.SwapAmountInRoutesValidate msgIn.Routes with
      | some e => simp
      | none =>
        by_cases hv : c.CoinIsValid msgIn.TokenIn = true
        · by_cases hp : 0 < msgIn.TokenIn.Amount
          · by_cases hl : 0 < msgIn.TokenOutMinAmount
            · simp [IsPositive, Coin.IsPositive, hv, hp, hl]
            · simp [IsPositive, Coin.IsPositive, hv, hp, hl]
          · simp [IsPositive, Coin.IsPositive, hv, hp]
        · simp [IsPositive, Coin.IsPositive, hv]
  · unfold MsgSwapExactAmountOut.ValidateBasic
    cases hdec : c.AccAddressFromBech32 msgOut.Sender with
    | error e => simp
    | ok addr =>
      cases hr : c.SwapAmountOutRoutesValidate msgOut.Routes with
      | some e => simp
      | none =>
        by_cases hv : c.CoinIsValid msgOut.TokenOut = true
        · by_cases hp : 0 < msgOut.TokenOut.Amount
          · by_cases hl : 0 < msgOut.TokenInMaxAmount
            · simp [IsPositive, Coin.IsPositive, hv, hp, hl]
            · simp [IsPositive, Coin.IsPositive, hv, hp, hl]
          · simp [IsPositive, Coin.IsPositive, hv, hp]
        · simp [IsPositive, Coin.IsPositive, hv]
  · rintro ⟨addr, hdec⟩ hr hv hp hl
    have hl1 : ¬ 0 < msgIn.TokenOutMinAmount := not_lt.mpr hl
    simp [MsgSwapExactAmountIn.ValidateBasic, hdec, hr, IsPositive, Coin.IsPositive, hv, hp,
      hl1]
  · rintro ⟨addr, hdec⟩ hr hv hp hl
    have hl1 : ¬ 0 < msgOut.TokenInMaxAmount := not_lt.mpr hl
    simp [MsgSwapExactAmountOut.ValidateBasic, hdec, hr, IsPositive, Coin.IsPositive, hv, hp,
      hl1]

/-- When the shared `GetSigners` body finds the sender decoding to `addr`, it returns
the list holding exactly `addr`. -/
theorem signersOf_of_decodes (c : Collaborators) (sender : String) (addr : AccAddress)
    (h : c.AccAddressFromBech32 sender = .ok addr) : signersOf c sender = .ok [addr] := by
  simp [signersOf, h]

/-- C16. For each of the ten message types: if `ValidateBasic` returns nil, then the
sender decodes, and `GetSigners` does not panic and returns the list of exactly one
address, the decoding of the message's sender. -/
theorem GetSigners_of_ValidateBasic_nil (c : Collaborators) (msg : Msg)
    (hvalid : msg.ValidateBasic c = none) :
    ∃ addr, c.AccAddressFromBech32 msg.Sender = .ok addr ∧
      msg.GetSigners c = .ok [addr] := by
  have hdec : ∃ addr, c.AccAddressFromBech32 msg.Sender = .ok addr := by
    cases msg with
    | createPool m =>
      simp only [Msg.ValidateBasic, MsgCreatePool.ValidateBasic] at hvalid
      simp only [Msg.Sender]
      cases hd : c.AccAddressFromBech32 m.Sender with
      | error e => simp [hd] at hvalid
      | ok addr => exact ⟨addr, rfl⟩
    | swapExactAmountIn m =>
      simp only [Msg.ValidateBasic, MsgSwapExactAmountIn.ValidateBasic] at hvalid
      simp only [Msg.Sender]
      cases hd : c.AccAddressFromBech32 m.Sender with
      | error e => simp [hd] at hvalid
      | ok addr => exact ⟨addr, rfl⟩
    | swapExactAmountOut m =>
      simp only [Msg.ValidateBasic, MsgSwapExactAmountOut.ValidateBasic] at hvalid
      simp only [Msg.Sender]
      cases hd : c.AccAddressFromBech32 m.Sender with
      | error e => simp [hd] at hvalid
      | ok addr => exact ⟨addr, rfl⟩
    | joinPool m =>
      simp only [Msg.ValidateBasic, MsgJoinPool.ValidateBasic] at hvalid
      simp only [Msg.Sender]
      cases hd : c.AccAddressFromBech32 m.Sender with
      | error e => simp [hd] at hvalid
      | ok addr => exact ⟨addr, rfl⟩
    | exitPool m =>
      simp only [Msg.ValidateBasic, MsgExitPool.ValidateBasic] at hvalid
      simp only [Msg.Sender]
      cases hd : c.AccAddressFromBech32 m.Sender with
      | error e => simp [hd] at hvalid
      | ok addr => exact ⟨addr, rfl⟩
    | joinSwapExternAmountIn m =>
      simp only [Msg.ValidateBasic, MsgJoinSwapExternAmountIn.ValidateBasic] at hvalid
      simp only [Msg.Sender]
      cases hd : c.AccAddressFromBech32 m.Sender with
      | error e => simp [hd] at hvalid
      | ok addr => exact ⟨addr, rfl⟩
    | joinSwapShareAmountOut m =>
      simp only [Msg.ValidateBasic, MsgJoinSwapShareAmountOut.ValidateBasic] at hvalid
      simp only [Msg.Sender]
      cases hd : c.AccAddressFromBech32 m.Sender with
      | error e => simp [hd] at hvalid
      | ok addr => exact ⟨addr, rfl⟩
    | exitSwapExternAmountOut m =>
      simp only [Msg.ValidateBasic, MsgExitSwapExternAmountOut.ValidateBasic] at hvalid
      simp only [Msg.Sender]
      cases hd : c.AccAddressFromBech32 m.Sender with
      | error e => simp [hd] at hvalid
      | ok addr => exact ⟨addr, rfl⟩
    | exitSwapShareAmountIn m =>
      simp only [Msg.ValidateBasic, MsgExitSwapShareAmountIn.ValidateBasic] at hvalid
      simp only [Msg.Sender]
      cases hd : c.AccAddressFromBech32 m.Sender with
      | error e => simp [hd] at hvalid
      | ok addr => exact ⟨addr, rfl⟩
    | updateSwapFee m =>
      simp only [Msg.ValidateBasic, MsgUpdateSwapFee.ValidateBasic] at hvalid
      simp only [Msg.Sender]
      cases hd : c.AccAddressFromBech32 m.Sender with
      | error e =>
        rw [hd] at hvalid
        split at hvalid
        · simp at hvalid
        · split at hvalid <;> simp at hvalid
      | ok addr => exact ⟨addr, rfl⟩
  obtain ⟨addr, ha⟩ := hdec
  refine ⟨addr, ha, ?_⟩
  cases msg <;> exact signersOf_of_decodes c _ addr ha

/-- C11 with the stand-in collaborators: the fees -1 and 1.000000000000000001 are
refused whatever the sender, the fees 0 and 1 are accepted from sender "a", and the fee
0.5 is accepted from it too. -/
theorem MsgUpdateSwapFee_ValidateBasic_fee_bounds_witness :
    MsgUpdateSwapFee.ValidateBasic sampleCollaborators { Sender := "", NewSwapFee := -1 }
      = some (.new "swap fee could not be negative") ∧
    MsgUpdateSwapFee.ValidateBasic sampleCollaborators
        { Sender := "a", NewSwapFee := NewDec 1 + 1 }
      = some (.new "swap fee could not exceed 100%") ∧
    MsgUpdateSwapFee.ValidateBasic sampleCollaborators
        { Sender := "a", NewSwapFee := 500000000000000000 } = none ∧
    MsgUpdateSwapFee.ValidateBasic sampleCollaborators { Sender := "a", NewSwapFee := 0 }
      = none ∧
    MsgUpdateSwapFee.ValidateBasic sampleCollaborators
        { Sender := "a", NewSwapFee := NewDec 1 } = none :=
  ⟨(MsgUpdateSwapFee_ValidateBasic_fee_bounds sampleCollaborators
      { Sender := "", NewSwapFee := -1 }).1 (by decide),
   (MsgUpdateSwapFee_ValidateBasic_fee_bounds sampleCollaborators
      { Sender := "a", NewSwapFee := NewDec 1 + 1 }).2.1 (by decide),
   (MsgUpdateSwapFee_ValidateBasic_fee_bounds sampleCollaborators
      { Sender := "a", NewSwapFee := 500000000000000000 }).2.2.1 [97]
      (by decide) (by decide) rfl (by decide),
   (MsgUpdateSwapFee_ValidateBasic_fee_bounds sampleCollaborators
      { Sender := "a", NewSwapFee := 7 }).2.2.2 [97] rfl (by decide)⟩

/-- C12 with the stand-in collaborators: a well-formed exact-in and exact-out message
validate; with a zero, respectively negative, limit they yield `ErrNotPositiveCriteria`;
and a message whose sender does not decode is refused for its address, whatever its
limit. -/
theorem swap_ValidateBasic_nil_iff_witness :
    (sampleSwapIn "a" 1).ValidateBasic sampleCollaborators = none ∧
    (sampleSwapOut "a" 1).ValidateBasic sampleCollaborators = none ∧
    (sampleSwapIn "a" 0).ValidateBasic sampleCollaborators = some .ErrNotPositiveCriteria ∧
    (sampleSwapOut "a" (-3)).ValidateBasic sampleCollaborators
      = some .ErrNotPositiveCriteria ∧
    (sampleSwapOut "" 0).ValidateBasic sampleCollaborators
      = some (.wrap .ErrInvalidAddress) :=
  ⟨(swap_ValidateBasic_nil_iff sampleCollaborators (sampleSwapIn "a" 1)
      (sampleSwapOut "a" 1)).1.mpr
      ⟨⟨[97], rfl⟩, by decide, by decide, by decide, by decide⟩,
   (swap_ValidateBasic_nil_iff sampleCollaborators (sampleSwapIn "a" 1)
      (sampleSwapOut "a" 1)).2.1.mpr
      ⟨⟨[97], rfl⟩, by decide, by decide, by decide, by decide⟩,
   (swap_ValidateBasic_nil_iff sampleCollaborators (sampleSwapIn "a" 0)
      (sampleSwapOut "a" (-3))).2.2.1
      ⟨[97], rfl⟩ (by decide) (by decide) (by decide) (by decide),
   (swap_ValidateBasic_nil_iff sampleCollaborators (sampleSwapIn "a" 0)
      (sampleSwapOut "a" (-3))).2.2.2
      ⟨[97], rfl⟩ (by decide) (by decide) (by decide) (by decide),
   by decide⟩

/-- C14 with the stand-in collaborators: a pool of two well-formed records validates,
and a pool whose second record has weight zero does not. -/
theorem MsgCreatePool_ValidateBasic_nil_iff_witness :
    (samplePool [sampleRecord "uosmo", sampleRecord "uion"]).ValidateBasic
      sampleCollaborators = none ∧
    (samplePool [sampleRecord "uosmo",
        { Weight := 0, Token := { Denom := "uion", Amount := 1 } }]).ValidateBasic
      sampleCollaborators ≠ none :=
  ⟨(MsgCreatePool_ValidateBasic_nil_iff sampleCollaborators
      (samplePool [sampleRecord "uosmo", sampleRecord "uion"])).mpr
      ⟨⟨[97], rfl⟩, by decide, by decide, by decide, by decide, by decide⟩,
   fun h =>
    absurd ((MsgCreatePool_ValidateBasic_nil_iff sampleCollaborators
      (samplePool [sampleRecord "uosmo",
        { Weight := 0, Token := { Denom := "uion", Amount := 1 } }])).mp h).2.2.2.1
      (by decide)⟩

/-- C15 with the stand-in collaborators, whose sender "a" decodes: no record, one
record (even a malformed one) and nine records give the three count errors, and two
well-formed records give none of them. -/
theorem MsgCreatePool_ValidateBasic_record_count_witness :
    sampleCollaborators.AccAddressFromBech32 (samplePool []).Sender = .ok [97] ∧
    (samplePool []).ValidateBasic sampleCollaborators = some .ErrEmptyRecords ∧
    (samplePool [{ Weight := 0, Token := { Denom := "", Amount := -1 } }]).ValidateBasic
      sampleCollaborators = some .ErrTooLittleRecords ∧
    (samplePool (List.replicate 9 (sampleRecord "uosmo"))).ValidateBasic sampleCollaborators
      = some (.wrap .ErrTooManyRecords) ∧
    ((samplePool [sampleRecord "uosmo", sampleRecord "uion"]).ValidateBasic
        sampleCollaborators ≠ some .ErrEmptyRecords ∧
      (samplePool [sampleRecord "uosmo", sampleRecord "uion"]).ValidateBasic
        sampleCollaborators ≠ some .ErrTooLittleRecords ∧
      (samplePool [sampleRecord "uosmo", sampleRecord "uion"]).ValidateBasic
        sampleCollaborators ≠ some (.wrap .ErrTooManyRecords)) :=
  ⟨rfl,
   (MsgCreatePool_ValidateBasic_record_count sampleCollaborators (samplePool []) [97]
      rfl).1 (by decide),
   (MsgCreatePool_ValidateBasic_record_count sampleCollaborators
      (samplePool [{ Weight := 0, Token := { Denom := "", Amount := -1 } }]) [97]
      rfl).2.1 (by decide),
   (MsgCreatePool_ValidateBasic_record_count sampleCollaborators
      (samplePool (List.replicate 9 (sampleRecord "uosmo"))) [97]
      rfl).2.2.1 (by decide),
   (MsgCreatePool_ValidateBasic_record_count sampleCollaborators
      (samplePool [sampleRecord "uosmo", sampleRecord "uion"]) [97]
      rfl).2.2.2 (by decide) (by decide) (by decide)⟩

/-- C16 with the stand-in collaborators: a valid fee update and a valid pool creation
from sender "a" both have exactly the signer that "a" decodes to. -/
theorem GetSigners_of_ValidateBasic_nil_witness :
    (Msg.updateSwapFee { Sender := "a", NewSwapFee := 0 }).ValidateBasic sampleCollaborators
      = none ∧
    (∃ addr, sampleCollaborators.AccAddressFromBech32 "a" = .ok addr ∧
      (Msg.updateSwapFee { Sender := "a", NewSwapFee := 0 }).GetSigners sampleCollaborators
        = .ok [addr]) ∧
    (∃ addr, sampleCollaborators.AccAddressFromBech32 "a" = .ok addr ∧
      (Msg.createPool (samplePool [sampleRecord "uosmo", sampleRecord "uion"])).GetSigners
        sampleCollaborators = .ok [addr]) :=
  ⟨by decide,
   GetSigners_of_ValidateBasic_nil sampleCollaborators
     (Msg.updateSwapFee { Sender := "a", NewSwapFee := 0 }) (by decide),
   GetSigners_of_ValidateBasic_nil sampleCollaborators
     (Msg.createPool (samplePool [sampleRecord "uosmo", sampleRecord "uion"])) (by decide)⟩

end Gamm
